import Mathlib

/-!
Shallow embedding of `path_explain/path_explainer_tf.py` (class `PathExplainerTF`).

Arrays are modelled as lists of rationals.  The two samplers, the
single-sample attributor and the batch orchestrator are translated from the
source; randomness (`np.random.uniform`, `np.random.choice`) is made explicit
by passing the underlying random draws as function arguments.  Operations
that can raise a Python exception (`np.random.choice` without replacement
when the population is too small, `np.zeros(*shape)` with extra positional
arguments, numpy broadcasting errors, `np.concatenate([])`) return `Option`
or `Except` values, `none`/`error` standing for the raised exception.

The attributor and orchestrator are embedded at the rank-1 instance (each
sample is a scalar, a batch is a list), where every numpy operation of the
source is plain elementwise arithmetic; the broadcasting behaviour of
`batch_alphas * batch_input` for rank-2 batches (lines 111-113 of the
source) is embedded separately (`bcastMulVecMat`, `batchInterpolated`).
The external model is a row-wise function; `tape.gradient` of
`model(alpha * input + (1 - alpha) * baseline)` with respect to `input` is
the chain-rule derivative `alpha * grad(interpolated)`, as the tape records
the interpolation expression (source lines 108-118).
-/

/-- One draw of `np.random.uniform(low, high)`, with `u` the underlying
uniform sample from the unit interval. -/
def npUniform (low high u : ℚ) : ℚ :=
  low + (high - low) * u

/-- `np.linspace(start, stop, num, endpoint=True)`. -/
def linspace (start stop : ℚ) (num : Nat) : List ℚ :=
  if num = 1 then [start]
  else (List.range num).map (fun i : ℕ => start + (stop - start) * (i : ℚ) / ((num : ℚ) - 1))

/-- `PathExplainerTF._sample_alphas` (source lines 61-73): uniform draws on
the degenerate interval [0, 0] in expectation mode, `np.linspace(0.0, 1.0,
num_samples, endpoint=True)` otherwise.  `us` supplies the unit-interval
random draws. -/
def sampleAlphas (numSamples : Nat) (useExpectation : Bool) (us : Nat → ℚ) : List ℚ :=
  if useExpectation then (List.range numSamples).map (fun t => npUniform 0 0 (us t))
  else linspace 0 1 numSamples

/-- Draw `d` distinct indices from the pool without replacement, `u`
supplying the random choices. -/
def drawNoReplace (u : Nat → Nat) : Nat → Nat → List Nat → List Nat
  | _, 0, _ => []
  | _, _ + 1, [] => []
  | t, d + 1, p :: pool =>
    let k := u t % (p :: pool).length
    (p :: pool).getD k 0 :: drawNoReplace u (t + 1) d ((p :: pool).eraseIdx k)

/-- `np.random.choice(r, size=d, replace=replace)`: `d` indices below `r`.
Without replacement it raises `ValueError` (= `none`) when `d > r`. -/
def npChoice (r d : Nat) (replace : Bool) (u : Nat → Nat) : Option (List Nat) :=
  if r = 0 then none
  else if replace then some ((List.range d).map (fun t => u t % r))
  else if d ≤ r then some (drawNoReplace u 0 d (List.range r))
  else none

/-- `PathExplainerTF._sample_baseline` (source lines 34-59), rank-1 baseline.
In expectation mode the source sets `replace = baseline.shape[0] >
number_to_draw` (line 50) and gathers the chosen rows; otherwise it tiles
the baseline `number_to_draw` times along the leading axis. -/
def sampleBaseline (baseline : List ℚ) (numberToDraw : Nat) (useExpectation : Bool)
    (u : Nat → Nat) : Option (List ℚ) :=
  if useExpectation then
    let replace := decide (baseline.length > numberToDraw)
    match npChoice baseline.length numberToDraw replace u with
    | none => none
    | some sampleIndices => some (sampleIndices.map (fun i => baseline.getD i 0))
  else
    some (List.flatten (List.replicate numberToDraw baseline))

/-- The interpolation expression of source line 112-113 for one batch row:
`alpha * input + (1 - alpha) * baseline`. -/
def interpolate (a xv bv : ℚ) : ℚ :=
  a * xv + (1 - a) * bv

/-- Python `range(start, stop, step)` for a positive step, with explicit
fuel (`fuel = stop` is always enough). -/
def rangeStepAux (step : Nat) : Nat → Nat → Nat → List Nat
  | 0, _, _ => []
  | fuel + 1, start, stop =>
    if start < stop then start :: rangeStepAux step fuel (start + step) stop else []

/-- Python `range(start, stop, step)`; a zero step raises `ValueError`,
modelled as the empty iteration. -/
def rangeStep (start stop step : Nat) : List Nat :=
  if step = 0 then [] else rangeStepAux step stop start stop

/-- One iteration of the micro-batch loop of
`PathExplainerTF._single_attribution` (source lines 96-120) at chunk start
`j`, for scalar samples: sample the baseline, slice the alphas, tile the
input, build `difference`, `interpolated`, the tape gradients with respect
to the tiled input, and the per-row attribution contributions.  `none` is a
raised exception (baseline sampling failure, or an elementwise shape
mismatch). -/
def processChunk (grad : ℚ → ℚ) (currentInput : ℚ) (currentBaseline : List ℚ)
    (currentAlphas : List ℚ) (numSamples batchSize : Nat) (useExpectation : Bool)
    (idx : Nat → Nat) (j : Nat) : Option (List ℚ) :=
  let numberToDraw := min batchSize (numSamples - j)
  match sampleBaseline currentBaseline numberToDraw useExpectation (fun t => idx (j + t)) with
  | none => none
  | some batchBaseline =>
    let batchAlphas := (currentAlphas.drop j).take (min (j + batchSize) numSamples - j)
    let batchInput := List.replicate numberToDraw currentInput
    if batchAlphas.length = numberToDraw ∧ batchBaseline.length = numberToDraw then
      let batchDifference := List.zipWith (fun xv bv => xv - bv) batchInput batchBaseline
      let batchInterpolated :=
        List.zipWith (fun a p => interpolate a p.1 p.2) batchAlphas (batchInput.zip batchBaseline)
      let batchGradients :=
        List.zipWith (fun a t => a * grad t) batchAlphas batchInterpolated
      some (List.zipWith (fun g d => g * d) batchGradients batchDifference)
    else none

/-- Run the micro-batch loop over the chunk starts, collecting the per-chunk
attribution arrays and counting the model evaluations performed (one per
chunk that reaches the model call); the first exception aborts the loop. -/
def runChunks (f : Nat → Option (List ℚ)) : List Nat → Option (List (List ℚ)) × Nat
  | [] => (some [], 0)
  | j :: rest =>
    match f j with
    | none => (none, 0)
    | some contrib =>
      match runChunks f rest with
      | (none, n) => (none, 1 + n)
      | (some rs, n) => (some (contrib :: rs), 1 + n)

/-- `PathExplainerTF._single_attribution` (source lines 75-123) for scalar
samples, also returning the number of model evaluations performed:
accumulate the chunk contributions, `np.concatenate` them (raising on an
empty list) and take the mean over the sample axis. -/
def singleAttributionC (grad : ℚ → ℚ) (currentInput : ℚ) (currentBaseline : List ℚ)
    (currentAlphas : List ℚ) (numSamples batchSize : Nat) (useExpectation : Bool)
    (idx : Nat → Nat) : Option ℚ × Nat :=
  match runChunks
      (processChunk grad currentInput currentBaseline currentAlphas
        numSamples batchSize useExpectation idx)
      (rangeStep 0 numSamples batchSize) with
  | (none, evals) => (none, evals)
  | (some arrs, evals) =>
    let attributionArray := arrs.flatten
    if attributionArray.length = 0 then (none, evals)
    else (some (attributionArray.sum / (attributionArray.length : ℚ)), evals)

/-- The attribution value computed by `_single_attribution` (`none` = a
raised exception). -/
def singleAttribution (grad : ℚ → ℚ) (currentInput : ℚ) (currentBaseline : List ℚ)
    (currentAlphas : List ℚ) (numSamples batchSize : Nat) (useExpectation : Bool)
    (idx : Nat → Nat) : Option ℚ :=
  (singleAttributionC grad currentInput currentBaseline currentAlphas
    numSamples batchSize useExpectation idx).1

/-- Exceptions escaping `PathExplainerTF.attributions`: the explicit
`ValueError` of lines 162-164, or an exception raised by a numpy operation. -/
inductive AttrError
  | invalidArgument
  | numpyError
deriving DecidableEq

/-- `np.zeros(*shape)` (source line 166): the shape tuple is unpacked into
positional arguments, so a second dimension is passed as the `dtype`
argument and raises `TypeError` (= `none`); only rank-1 shapes survive. -/
def npZerosStar (shape : List Nat) : Option (List Nat) :=
  match shape with
  | [n] => some [n]
  | _ => none

/-- The validation and result-allocation block of
`PathExplainerTF.attributions` (source lines 159-166), at shape level:
multi-output without selection allocates `np.zeros((num_classes,) +
inputs.shape)`; a single-output model with `output_indices` raises
`ValueError`; every other case allocates `np.zeros(*inputs.shape)`. -/
def allocAttributions (isMultiOutput : Bool) (numClasses : Nat)
    (outputIndices : Option (List Nat)) (inputsShape : List Nat) :
    Except AttrError (List Nat) :=
  if isMultiOutput && outputIndices.isNone then
    Except.ok (numClasses :: inputsShape)
  else if !isMultiOutput && outputIndices.isSome then
    Except.error AttrError.invalidArgument
  else
    match npZerosStar inputsShape with
    | some s => Except.ok s
    | none => Except.error AttrError.numpyError

/-- The per-input baseline selection of `PathExplainerTF.attributions`
(source lines 175-178): in non-expectation mode with more than one baseline
row, `np.expand_dims(baseline[i], axis=0)`; otherwise the baseline
unchanged.  `none` is the `IndexError` of an out-of-range `baseline[i]`. -/
def currentBaselineFor (useExpectation : Bool) (baseline : List ℚ) (i : Nat) :
    Option (List ℚ) :=
  if !useExpectation && decide (1 < baseline.length) then
    (baseline.get? i).map (fun bi => [bi])
  else some baseline

/-- The numpy arrays live at a call to `attributions`: the caller's inputs
and baseline, and the freshly allocated attribution container. -/
structure Store where
  inputs : List ℚ
  baseline : List ℚ
  attributions : List ℚ
deriving DecidableEq

/-- The body of the per-input loop of `PathExplainerTF.attributions` (source
lines 172-209), single-output instance, for input index `i`: resample the
alphas, select the baseline, and run `_single_attribution`.  Also returns
the model-evaluation count. -/
def attrEntryC (grad : ℚ → ℚ) (inputs baseline : List ℚ) (batchSize numSamples : Nat)
    (useExpectation : Bool) (us : Nat → Nat → ℚ) (idx : Nat → Nat → Nat) (i : Nat) :
    Option ℚ × Nat :=
  let currentAlphas := sampleAlphas numSamples useExpectation (us i)
  match inputs.get? i, currentBaselineFor useExpectation baseline i with
  | some x, some cb =>
    singleAttributionC grad x cb currentAlphas numSamples batchSize useExpectation (idx i)
  | _, _ => (none, 0)

/-- The attribution value the orchestrator computes for input `i`. -/
def attrEntry (grad : ℚ → ℚ) (inputs baseline : List ℚ) (batchSize numSamples : Nat)
    (useExpectation : Bool) (us : Nat → Nat → ℚ) (idx : Nat → Nat → Nat) (i : Nat) :
    Option ℚ :=
  (attrEntryC grad inputs baseline batchSize numSamples useExpectation us idx i).1

/-- The per-input loop of `PathExplainerTF.attributions`: each iteration
writes its attribution into slot `i` of the attribution container; the
inputs and baseline arrays are only read.  `fuel` is the number of
remaining iterations (`inputs.length` at the start). -/
def attrLoop (grad : ℚ → ℚ) (batchSize numSamples : Nat) (useExpectation : Bool)
    (us : Nat → Nat → ℚ) (idx : Nat → Nat → Nat) :
    Nat → Nat → Store → Option Store × Nat
  | _, 0, st => (some st, 0)
  | i, fuel + 1, st =>
    match attrEntryC grad st.inputs st.baseline batchSize numSamples useExpectation us idx i with
    | (none, n) => (none, n)
    | (some a, n) =>
      match attrLoop grad batchSize numSamples useExpectation us idx (i + 1) fuel
          { st with attributions := st.attributions.set i a } with
      | (r, m) => (r, n + m)

/-- `PathExplainerTF.attributions` (source lines 125-210), rank-1
single-output instance, with an explicit store of numpy arrays and a count
of model evaluations.  The model is probed once on `inputs[0:1]` (line 156,
one evaluation); supplying `output_indices` to the single-output model then
raises `ValueError` (lines 162-164) before the result container is
allocated (line 166) and before the per-input loop runs. -/
def attributionsRun (grad : ℚ → ℚ) (outputIndices : Option (List Nat))
    (inputs baseline : List ℚ) (batchSize numSamples : Nat) (useExpectation : Bool)
    (us : Nat → Nat → ℚ) (idx : Nat → Nat → Nat) : Except AttrError Store × Nat :=
  let probeEvals := 1
  if outputIndices.isSome then
    (Except.error AttrError.invalidArgument, probeEvals)
  else
    match npZerosStar [inputs.length] with
    | none => (Except.error AttrError.numpyError, probeEvals)
    | some _ =>
      match attrLoop grad batchSize numSamples useExpectation us idx 0 inputs.length
          ⟨inputs, baseline, List.replicate inputs.length 0⟩ with
      | (none, n) => (Except.error AttrError.numpyError, probeEvals + n)
      | (some st, n) => (Except.ok st, probeEvals + n)

/-- The column count of a rank-2 numpy array (`none` for a ragged or empty
list of rows, which does not arise from numpy values). -/
def npShape2Cols (m : List (List ℚ)) : Option Nat :=
  match m with
  | [] => none
  | r :: rs => if rs.all (fun row => row.length == r.length) then some r.length else none

/-- Numpy broadcasting of `v * m` for `v` of shape `(k,)` and `m` of shape
`(r, c)`: shapes are aligned from the right, so `v` is laid along the last
(feature) axis; the product raises `ValueError` (= `none`) unless `k = c`,
`k = 1` or `c = 1`. -/
def bcastMulVecMat (v : List ℚ) (m : List (List ℚ)) : Option (List (List ℚ)) :=
  match npShape2Cols m with
  | none => none
  | some c =>
    let k := v.length
    if k = c then some (m.map (fun row => List.zipWith (fun a b => a * b) v row))
    else if k = 1 then some (m.map (fun row => row.map (fun b => v.headD 0 * b)))
    else if c = 1 then some (m.map (fun row => v.map (fun a => a * row.headD 0)))
    else none

/-- Elementwise sum of two rank-2 arrays of identical shape (the only case
the attributor reaches; `none` otherwise). -/
def ewAddMat (a b : List (List ℚ)) : Option (List (List ℚ)) :=
  if a.length == b.length && (a.zip b).all (fun p => p.1.length == p.2.length) then
    some ((a.zip b).map (fun p => List.zipWith (fun x y => x + y) p.1 p.2))
  else none

/-- Source lines 112-113 for a rank-2 micro-batch: `batch_interpolated =
batch_alphas * batch_input + (1.0 - batch_alphas) * batch_baseline` under
numpy broadcasting. -/
def batchInterpolated (batchAlphas : List ℚ) (batchInput batchBaseline : List (List ℚ)) :
    Option (List (List ℚ)) :=
  match bcastMulVecMat batchAlphas batchInput with
  | none => none
  | some t1 =>
    match bcastMulVecMat (batchAlphas.map (fun a => 1 - a)) batchBaseline with
    | none => none
    | some t2 => ewAddMat t1 t2

/-- The interpolated batch as the claim states it: the scalar alpha of each
batch row is broadcast over all feature dimensions of that row. -/
def specInterpolated (batchAlphas : List ℚ) (batchInput batchBaseline : List (List ℚ)) :
    List (List ℚ) :=
  List.zipWith (fun a p => List.zipWith (fun xv bv => interpolate a xv bv) p.1 p.2)
    batchAlphas (batchInput.zip batchBaseline)

/-! Helper lemmas about list operations used by the attributor. -/

theorem flatten_replicate_singleton (k : Nat) (b : ℚ) :
    List.flatten (List.replicate k [b]) = List.replicate k b := by
  induction k with
  | zero => rfl
  | succ k ih => simp [List.replicate_succ, ih]

theorem zipWith_replicate_same {α β γ : Type} (f : α → β → γ) (k : Nat) (a : α) (b : β) :
    List.zipWith f (List.replicate k a) (List.replicate k b) = List.replicate k (f a b) := by
  induction k with
  | zero => rfl
  | succ k ih => simp [List.replicate_succ, ih]

theorem zip_replicate_same {α β : Type} (k : Nat) (a : α) (b : β) :
    (List.replicate k a).zip (List.replicate k b) = List.replicate k (a, b) := by
  induction k with
  | zero => rfl
  | succ k ih => simp [List.replicate_succ, ih]

theorem zipWith_replicate_right_of_length {α β γ : Type} (f : α → β → γ) (l : List α)
    (k : Nat) (b : β) (h : l.length = k) :
    List.zipWith f l (List.replicate k b) = l.map (fun a => f a b) := by
  induction l generalizing k with
  | nil => simp
  | cons a l ih =>
    cases k with
    | zero => simp at h
    | succ k =>
      simp only [List.replicate_succ, List.zipWith_cons_cons, List.map_cons]
      rw [ih k (by simpa using h)]

theorem zipWith_self_map {α β γ : Type} (f : α → β → γ) (g : α → β) (l : List α) :
    List.zipWith f l (l.map g) = l.map (fun a => f a (g a)) := by
  induction l with
  | nil => rfl
  | cons a l ih => simp [ih]

theorem sum_map_mul_const (l : List ℕ) (g : ℕ → ℚ) (c : ℚ) :
    (l.map (fun i => g i * c)).sum = (l.map g).sum * c := by
  induction l with
  | nil => simp
  | cons a l ih =>
    simp only [List.map_cons, List.sum_cons, ih]
    ring

theorem sum_range_cast (n : Nat) :
    ((List.range n).map (fun i : ℕ => (i : ℚ))).sum = n * (n - 1) / 2 := by
  induction n with
  | zero => simp
  | succ n ih =>
    rw [List.range_succ, List.map_append, List.sum_append, ih]
    simp only [List.map_cons, List.map_nil, List.sum_cons, List.sum_nil]
    push_cast
    ring

/-- C6: for every positive num_samples M, the alpha sampler in expectation
mode returns exactly M values drawn uniformly from the degenerate interval
[0, 0], so every returned alpha is exactly 0, whatever the underlying
random draws are. -/
theorem sample_alphas_expectation_zero (M : Nat) (us : Nat → ℚ) (_hM : 0 < M) :
    (sampleAlphas M true us).length = M ∧ ∀ a ∈ sampleAlphas M true us, a = 0 := by
  refine ⟨by simp [sampleAlphas], ?_⟩
  intro a ha
  simp only [sampleAlphas, if_pos, List.mem_map, List.mem_range, npUniform] at ha
  obtain ⟨t, -, ht⟩ := ha
  linarith [ht]

theorem sample_alphas_expectation_zero_witness :
    0 < 2 ∧ (sampleAlphas 2 true (fun _ => 1 / 3)).length = 2 :=
  ⟨by decide, (sample_alphas_expectation_zero 2 (fun _ => 1 / 3) (by decide)).1⟩

/-- C8 counterexample: with num_samples = 1 in non-expectation mode the
alpha sequence is [0], so the endpoint 1 of the claimed inclusive grid is
not among the returned values. -/
theorem sample_alphas_endpoint_missing :
    sampleAlphas 1 false (fun _ => 0) = [0]
  ∧ ¬ (1 : ℚ) ∈ sampleAlphas 1 false (fun _ => 0) := by decide

/-- C8 (amended): in either mode the alpha sequence has length exactly
num_samples; in non-expectation mode, for num_samples ≥ 2 the value at
position i is i / (num_samples - 1) — an evenly spaced grid from 0 to 1
with both endpoints included — while for num_samples = 1 the sequence is
[0], so only the baseline endpoint appears. -/
theorem sample_alphas_spacing (M : Nat) (us : Nat → ℚ) (hM : 0 < M) :
    (sampleAlphas M true us).length = M
  ∧ (sampleAlphas M false us).length = M
  ∧ (2 ≤ M →
      (∀ i, i < M → (sampleAlphas M false us).get? i = some ((i : ℚ) / ((M : ℚ) - 1)))
      ∧ (0 : ℚ) ∈ sampleAlphas M false us ∧ (1 : ℚ) ∈ sampleAlphas M false us)
  ∧ (M = 1 → sampleAlphas M false us = [0]) := by
  have hget : 2 ≤ M → ∀ i, i < M →
      (sampleAlphas M false us).get? i = some ((i : ℚ) / ((M : ℚ) - 1)) := by
    intro h2 i hi
    have hM1 : ¬ M = 1 := by omega
    simp only [sampleAlphas, Bool.false_eq_true, if_false, linspace, if_neg hM1]
    rw [List.get?_map, List.get?_range hi]
    simp
  refine ⟨by simp [sampleAlphas], ?_, fun h2 => ⟨hget h2, ?_, ?_⟩, fun h1 => ?_⟩
  · by_cases hM1 : M = 1
    · subst hM1; simp [sampleAlphas, linspace]
    · simp [sampleAlphas, linspace, hM1]
  · have h0 := hget h2 0 (by omega)
    have : (sampleAlphas M false us).get? 0 = some 0 := by
      rw [h0]; norm_num
    exact List.get?_mem this
  · have hlast := hget h2 (M - 1) (by omega)
    have hcast : ((M : ℚ) - 1) ≠ 0 := by
      have : (2 : ℚ) ≤ (M : ℚ) := by exact_mod_cast h2
      linarith
    have hval : (((M - 1 : ℕ) : ℚ) / ((M : ℚ) - 1)) = 1 := by
      have : ((M - 1 : ℕ) : ℚ) = (M : ℚ) - 1 := by
        push_cast [Nat.cast_sub (by omega : 1 ≤ M)]
        ring
      rw [this, div_self hcast]
    rw [hval] at hlast
    exact List.get?_mem hlast
  · subst h1
    simp [sampleAlphas, linspace]

theorem sample_alphas_spacing_witness :
    0 < 3 ∧ (sampleAlphas 3 false (fun _ => 0)).length = 3 :=
  ⟨by decide, (sample_alphas_spacing 3 (fun _ => 0) (by decide)).2.1⟩

/-- C10: in non-expectation mode with num_samples = 1 the alpha sequence is
exactly [0], and the interpolation expression at alpha = 0 collapses to the
baseline point, so the input endpoint alpha = 1 is never evaluated. -/
theorem single_step_alpha_is_baseline (us : Nat → ℚ) (x b : ℚ) :
    sampleAlphas 1 false us = [0] ∧ interpolate 0 x b = b := by
  constructor
  · simp [sampleAlphas, linspace]
  · simp [interpolate]

/-- C3: the source sets replace = (R > D) (line 50), the reverse of the
claim.  At R = 1 baseline row and D = 2 draws in expectation mode,
np.random.choice runs without replacement and raises ValueError, while the
with-replacement draw the claim prescribes for R ≤ D would succeed. -/
theorem sample_baseline_replace_bug :
    sampleBaseline [(42 : ℚ)] 2 true (fun _ => 0) = none
  ∧ npChoice 1 2 true (fun _ => 0) = some [0, 0] := by decide

/-- C1: the interpolated micro-batch is not computed with alpha broadcast
per row.  With 2 rows of 2 features, numpy aligns the alpha vector with the
trailing feature axis, so alpha[j] scales column j (code gives
[[7, 5], [7, 5]] where the per-row rule gives [[7, 7], [5, 5]]); with 2
rows of 3 features the product batch_alphas * batch_input raises a
broadcast ValueError. -/
theorem interpolation_broadcast_bug :
    batchInterpolated [0, 1] [[5, 5], [5, 5]] [[7, 7], [7, 7]] = some [[7, 5], [7, 5]]
  ∧ specInterpolated [0, 1] [[5, 5], [5, 5]] [[7, 7], [7, 7]] = [[7, 7], [5, 5]]
  ∧ batchInterpolated [0, 1] [[5, 5, 5], [5, 5, 5]] [[0, 0, 0], [0, 0, 0]] = none := by
  refine ⟨?_, ?_, ?_⟩ <;>
    norm_num [batchInterpolated, bcastMulVecMat, npShape2Cols, ewAddMat, specInterpolated,
      interpolate]

/-- C2: allocation of the result container: the multi-output/no-selection
case builds shape (C, N, S) correctly, and rank-1 inputs survive
np.zeros(*inputs.shape), but for inputs with a nonempty per-sample feature
shape the unpacked call passes the second dimension as numpy's dtype
argument and raises TypeError in both shape-(N, S) cases, instead of
returning an array of shape (N, S). -/
theorem attributions_alloc_shape_bug :
    allocAttributions true 4 none [3, 5] = Except.ok [4, 3, 5]
  ∧ allocAttributions false 1 none [3] = Except.ok [3]
  ∧ allocAttributions false 1 none [3, 5] = Except.error AttrError.numpyError
  ∧ allocAttributions true 4 (some [0]) [3, 5] = Except.error AttrError.numpyError :=
  ⟨rfl, rfl, rfl, rfl⟩

/-- C4 counterexample: supplying output_indices to the single-output model
does raise the invalid-argument error, but only after the output-arity
probe of line 156: one model evaluation has been performed, not zero. -/
theorem invalid_argument_probe_counted :
    attributionsRun (fun _ => 1) (some [0]) [2] [0] 1 1 false (fun _ _ => 0) (fun _ _ => 0)
      = (Except.error AttrError.invalidArgument, 1)
  ∧ (1 : Nat) ≠ 0 := ⟨rfl, by decide⟩

/-- C4 (amended): whenever output_indices is supplied to the single-output
model, the call raises the invalid-argument error before the result
container is allocated and before any attribution computation; the only
model evaluation performed is the single output-arity probe, so the count
is exactly one. -/
theorem invalid_argument_immediate (grad : ℚ → ℚ) (ois : List Nat)
    (inputs baseline : List ℚ) (batchSize numSamples : Nat) (useExpectation : Bool)
    (us : Nat → Nat → ℚ) (idx : Nat → Nat → Nat) :
    attributionsRun grad (some ois) inputs baseline batchSize numSamples useExpectation us idx
      = (Except.error AttrError.invalidArgument, 1) := rfl

theorem chunk_contrib_eval (grad : ℚ → ℚ) (x B : ℚ) (l : List ℚ) (k : Nat)
    (hl : l.length = k) :
    List.zipWith (fun g d => g * d)
      (List.zipWith (fun a t => a * grad t) l
        (List.zipWith (fun a p => interpolate a p.1 p.2) l
          ((List.replicate k x).zip (List.replicate k B))))
      (List.zipWith (fun xv bv => xv - bv) (List.replicate k x) (List.replicate k B))
    = l.map (fun a => (a * grad (interpolate a x B)) * (x - B)) := by
  induction l generalizing k with
  | nil => cases k <;> simp
  | cons a l ih =>
    cases k with
    | zero => simp at hl
    | succ k =>
      simp only [List.replicate_succ, List.zip_cons_cons, List.zipWith_cons_cons, List.map_cons]
      rw [ih k (by simpa using hl)]

theorem processChunk_ig (grad : ℚ → ℚ) (x B : ℚ) (alphas : List ℚ) (M bs : Nat)
    (idx : Nat → Nat) (j : Nat) (hlen : alphas.length = M) (hj : j < M) :
    processChunk grad x [B] alphas M bs false idx j
      = some (((alphas.drop j).take (min bs (M - j))).map
          (fun a => (a * grad (interpolate a x B)) * (x - B))) := by
  have hsb : sampleBaseline [B] (min bs (M - j)) false (fun t => idx (j + t))
      = some (List.replicate (min bs (M - j)) B) := by
    simp [sampleBaseline, flatten_replicate_singleton]
  have hmin : min (j + bs) M - j = min bs (M - j) := by omega
  have htake : ((alphas.drop j).take (min bs (M - j))).length = min bs (M - j) := by
    rw [List.length_take, List.length_drop, hlen]
    omega
  simp only [processChunk, hmin, hsb]
  rw [if_pos ⟨htake, List.length_replicate _ _⟩]
  rw [chunk_contrib_eval grad x B _ _ htake]

theorem runChunks_ig (grad : ℚ → ℚ) (x B : ℚ) (alphas : List ℚ) (M bs : Nat)
    (idx : Nat → Nat) (hbs : 0 < bs) (hlen : alphas.length = M) :
    ∀ fuel j, M - j ≤ fuel →
      ∃ L n,
        runChunks (processChunk grad x [B] alphas M bs false idx)
          (rangeStepAux bs fuel j M) = (some L, n)
        ∧ L.flatten
          = (alphas.drop j).map (fun a => (a * grad (interpolate a x B)) * (x - B)) := by
  intro fuel
  induction fuel with
  | zero =>
    intro j hj
    refine ⟨[], 0, rfl, ?_⟩
    rw [List.drop_eq_nil_of_le (by omega)]
    rfl
  | succ fuel ih =>
    intro j hj
    by_cases hjM : j < M
    · have hrs : rangeStepAux bs (fuel + 1) j M = j :: rangeStepAux bs fuel (j + bs) M := by
        rw [rangeStepAux, if_pos hjM]
      obtain ⟨L, n, hrun, hflat⟩ := ih (j + bs) (by omega)
      refine ⟨((alphas.drop j).take (min bs (M - j))).map
          (fun a => (a * grad (interpolate a x B)) * (x - B)) :: L, 1 + n, ?_, ?_⟩
      · rw [hrs]
        simp only [runChunks, processChunk_ig grad x B alphas M bs idx j hlen hjM, hrun]
      · rw [List.flatten_cons, hflat]
        have hsplit : (alphas.drop j).take (min bs (M - j)) ++ alphas.drop (j + bs)
            = alphas.drop j := by
          rcases le_or_lt bs (M - j) with hfit | hfit
          · rw [min_eq_left hfit]
            exact List.drop_take_append_drop alphas j bs
          · have hlall : (alphas.drop j).length = M - j := by
              rw [List.length_drop, hlen]
            have h2 : alphas.drop (j + bs) = [] :=
              List.drop_eq_nil_of_le (by rw [hlen]; omega)
            rw [min_eq_right (by omega), ← hlall, List.take_length, h2, List.append_nil]
        rw [← List.map_append, hsplit]
    · have hrs : rangeStepAux bs (fuel + 1) j M = [] := by
        rw [rangeStepAux, if_neg hjM]
      refine ⟨[], 0, by rw [hrs]; rfl, ?_⟩
      rw [List.drop_eq_nil_of_le (by omega)]
      rfl

theorem singleAttribution_ig (grad : ℚ → ℚ) (x B : ℚ) (alphas : List ℚ) (M bs : Nat)
    (idx : Nat → Nat) (hbs : 0 < bs) (hlen : alphas.length = M) (hM : 0 < M) :
    singleAttribution grad x [B] alphas M bs false idx
      = some ((alphas.map (fun a => (a * grad (interpolate a x B)) * (x - B))).sum / (M : ℚ)) := by
  obtain ⟨L, n, hrun, hflat⟩ :=
    runChunks_ig grad x B alphas M bs idx hbs hlen M 0 (by omega)
  have hflat0 : L.flatten = alphas.map (fun a => (a * grad (interpolate a x B)) * (x - B)) := by
    simpa using hflat
  unfold singleAttribution singleAttributionC
  rw [rangeStep, if_neg (by omega), hrun]
  simp only [hflat0]
  rw [if_neg (by simp [hlen]; omega)]
  simp [hlen]

theorem linspace01_weighted_sum (G C : ℚ) (M : Nat) (hM : 2 ≤ M) :
    ((linspace 0 1 M).map (fun a => (a * G) * C)).sum = (M : ℚ) * G * C / 2 := by
  have hM1 : ¬ M = 1 := by omega
  have hMq : ((M : ℚ) - 1) ≠ 0 := by
    have h2 : (2 : ℚ) ≤ (M : ℚ) := by exact_mod_cast hM
    linarith
  rw [linspace, if_neg hM1, List.map_map]
  have hfun : ((fun a => (a * G) * C) ∘
      (fun i : ℕ => (0 : ℚ) + (1 - 0) * (i : ℚ) / ((M : ℚ) - 1)))
      = fun i : ℕ => (i : ℚ) * (G * C / ((M : ℚ) - 1)) := by
    funext i
    simp only [Function.comp]
    field_simp
    ring
  rw [hfun,
    sum_map_mul_const (List.range M) (fun i : ℕ => (i : ℚ)) (G * C / ((M : ℚ) - 1)),
    sum_range_cast]
  field_simp
  ring

/-- C5 (amended): for a model with constant gradient G, a single baseline
row B and integrated-gradients sampling, the attribution of input x is
(x - B) * G * mean(alphas): the tape gradient of the prediction with
respect to the input is taken through the interpolation expression and so
carries a factor alpha per step.  For every num_samples ≥ 2 and every
positive batch size the result is therefore (x - B) * G / 2 — half the
exact integral (x - B) * G of the claim — and it is 0 for num_samples = 1. -/
theorem single_attribution_linear_model (G B x : ℚ) (M batchSize : Nat)
    (us : Nat → ℚ) (idx : Nat → Nat) (hbs : 0 < batchSize) :
    (2 ≤ M →
      singleAttribution (fun _ => G) x [B] (sampleAlphas M false us) M batchSize false idx
        = some ((x - B) * G / 2))
  ∧ (M = 1 →
      singleAttribution (fun _ => G) x [B] (sampleAlphas M false us) M batchSize false idx
        = some 0) := by
  constructor
  · intro hM
    have hM1 : ¬ M = 1 := by omega
    have hlen : (sampleAlphas M false us).length = M := by
      simp [sampleAlphas, linspace, hM1]
    have hMq0 : (M : ℚ) ≠ 0 := by
      have h2 : (2 : ℚ) ≤ (M : ℚ) := by exact_mod_cast hM
      linarith
    rw [singleAttribution_ig (fun _ => G) x B _ M batchSize idx hbs hlen (by omega)]
    have hsa : sampleAlphas M false us = linspace 0 1 M := by simp [sampleAlphas]
    rw [hsa]
    congr 1
    show ((linspace 0 1 M).map (fun a => (a * G) * (x - B))).sum / (M : ℚ) = (x - B) * G / 2
    rw [linspace01_weighted_sum G (x - B) M hM]
    field_simp
    ring
  · intro h1
    subst h1
    have hlen : (sampleAlphas 1 false us).length = 1 := by
      simp [sampleAlphas, linspace]
    rw [singleAttribution_ig (fun _ => G) x B _ 1 batchSize idx hbs hlen (by omega)]
    have hsa : sampleAlphas 1 false us = [0] := by
      simp [sampleAlphas, linspace]
    rw [hsa]
    simp

theorem single_attribution_linear_model_witness :
    (0 < 2 ∧ 2 ≤ 5)
  ∧ singleAttribution (fun _ => 2) 3 [1] (sampleAlphas 5 false (fun _ => 0)) 5 2 false
      (fun _ => 0) = some ((3 - 1) * 2 / 2) :=
  ⟨⟨by decide, by decide⟩,
    (single_attribution_linear_model 2 1 3 5 2 (fun _ => 0) (fun _ => 0) (by decide)).1
      (by decide)⟩

/-- C5 counterexample: the identity model on scalars (constant gradient
G = 1) with baseline B = 0, input x = 1 and num_samples 2 yields attribution
1/2, not (x - B) * G = 1: the claimed exact linear-model value is missed. -/
theorem single_attribution_not_exact :
    singleAttribution (fun _ => 1) 1 [0] (sampleAlphas 2 false (fun _ => 0)) 2 50 false
      (fun _ => 0) = some (1 / 2)
  ∧ ((1 : ℚ) - 0) * 1 ≠ 1 / 2 := by
  constructor
  · norm_num [singleAttribution, singleAttributionC, rangeStep, rangeStepAux, runChunks,
      processChunk, sampleBaseline, sampleAlphas, linspace, interpolate,
      List.range_succ, List.replicate_succ, List.zipWith_cons_cons, List.sum_cons]
  · norm_num

/-- C7: in non-expectation mode with more than one baseline row, the
attribution the orchestrator computes for input i depends on baseline row i
exclusively — two baseline sets agreeing at row i yield identical results
for input i — and with a single baseline row the selection leaves the
baseline unchanged, so every input is given the same baseline. -/
theorem baseline_row_isolation (grad : ℚ → ℚ) (inputs b b' : List ℚ)
    (batchSize numSamples : Nat) (us : Nat → Nat → ℚ) (idx : Nat → Nat → Nat) (i : Nat)
    (hb : 1 < b.length) (hb' : 1 < b'.length) (hrow : b.get? i = b'.get? i) :
    attrEntry grad inputs b batchSize numSamples false us idx i
      = attrEntry grad inputs b' batchSize numSamples false us idx i
  ∧ ∀ c : List ℚ, c.length = 1 → ∀ j : Nat, currentBaselineFor false c j = some c := by
  constructor
  · have h1 : currentBaselineFor false b i = (b.get? i).map (fun bi => [bi]) := by
      simp [currentBaselineFor, hb]
    have h2 : currentBaselineFor false b' i = (b'.get? i).map (fun bi => [bi]) := by
      simp [currentBaselineFor, hb']
    unfold attrEntry attrEntryC
    rw [h1, h2, hrow]
  · intro c hc j
    simp [currentBaselineFor, hc]

theorem baseline_row_isolation_witness :
    (1 < [(1 : ℚ), 2].length ∧ 1 < [(1 : ℚ), 3].length
      ∧ [(1 : ℚ), 2].get? 0 = [(1 : ℚ), 3].get? 0)
  ∧ attrEntry (fun _ => 1) [5] [1, 2] 1 1 false (fun _ _ => 0) (fun _ _ => 0) 0
      = attrEntry (fun _ => 1) [5] [1, 3] 1 1 false (fun _ _ => 0) (fun _ _ => 0) 0 :=
  ⟨⟨by decide, by decide, by norm_num⟩,
    (baseline_row_isolation (fun _ => 1) [5] [1, 2] [1, 3] 1 1 (fun _ _ => 0) (fun _ _ => 0) 0
      (by decide) (by decide) (by norm_num)).1⟩

theorem attrLoop_frame (grad : ℚ → ℚ) (batchSize numSamples : Nat) (useExpectation : Bool)
    (us : Nat → Nat → ℚ) (idx : Nat → Nat → Nat) :
    ∀ fuel i st st' n,
      attrLoop grad batchSize numSamples useExpectation us idx i fuel st = (some st', n) →
      st'.inputs = st.inputs ∧ st'.baseline = st.baseline := by
  intro fuel
  induction fuel with
  | zero =>
    intro i st st' n h
    simp only [attrLoop, Prod.mk.injEq, Option.some.injEq] at h
    obtain ⟨h1, -⟩ := h
    rw [← h1]
    exact ⟨rfl, rfl⟩
  | succ fuel ih =>
    intro i st st' n h
    rw [attrLoop] at h
    rcases hE : attrEntryC grad st.inputs st.baseline batchSize numSamples useExpectation
        us idx i with ⟨v, cnt⟩
    rw [hE] at h
    cases v with
    | none => simp at h
    | some a =>
      dsimp only at h
      rcases hL : attrLoop grad batchSize numSamples useExpectation us idx (i + 1) fuel
          { st with attributions := st.attributions.set i a } with ⟨r, m⟩
      rw [hL] at h
      cases r with
      | none => simp at h
      | some st2 =>
        simp only [Prod.mk.injEq, Option.some.injEq] at h
        obtain ⟨h1, -⟩ := h
        rw [← h1]
        exact ih (i + 1) { st with attributions := st.attributions.set i a } st2 m hL

/-- C9: a call to attributions never writes to the inputs array or to the
baseline array: whenever the call returns successfully, both arrays in the
final store equal the arrays passed in, every write having targeted the
freshly allocated attribution container. -/
theorem attributions_inputs_baseline_unchanged (grad : ℚ → ℚ)
    (outputIndices : Option (List Nat)) (inputs baseline : List ℚ)
    (batchSize numSamples : Nat) (useExpectation : Bool)
    (us : Nat → Nat → ℚ) (idx : Nat → Nat → Nat) (st' : Store)
    (h : (attributionsRun grad outputIndices inputs baseline batchSize numSamples
            useExpectation us idx).1 = Except.ok st') :
    st'.inputs = inputs ∧ st'.baseline = baseline := by
  unfold attributionsRun at h
  cases hoi : outputIndices.isSome with
  | true => rw [hoi] at h; simp at h
  | false =>
    rw [hoi] at h
    simp only [npZerosStar, Bool.false_eq_true, if_false] at h
    rcases hL : attrLoop grad batchSize numSamples useExpectation us idx 0 inputs.length
        ⟨inputs, baseline, List.replicate inputs.length 0⟩ with ⟨r, m⟩
    rw [hL] at h
    cases r with
    | none => simp at h
    | some st2 =>
      simp only [Except.ok.injEq] at h
      rw [← h]
      exact attrLoop_frame grad batchSize numSamples useExpectation us idx
        inputs.length 0 _ st2 m hL

theorem attributions_inputs_baseline_unchanged_witness :
    ((attributionsRun (fun _ => 1) none [2] [0] 1 1 false (fun _ _ => 0) (fun _ _ => 0)).1
        = Except.ok (⟨[2], [0], [0]⟩ : Store))
  ∧ (⟨[2], [0], [0]⟩ : Store).inputs = [2] ∧ (⟨[2], [0], [0]⟩ : Store).baseline = [0] :=
  ⟨by norm_num [attributionsRun, attrLoop, attrEntryC, singleAttributionC, rangeStep,
      rangeStepAux, runChunks, processChunk, sampleBaseline, sampleAlphas, linspace,
      interpolate, currentBaselineFor, npZerosStar],
    attributions_inputs_baseline_unchanged (fun _ => 1) none [2] [0] 1 1 false
      (fun _ _ => 0) (fun _ _ => 0) ⟨[2], [0], [0]⟩
      (by norm_num [attributionsRun, attrLoop, attrEntryC, singleAttributionC, rangeStep,
        rangeStepAux, runChunks, processChunk, sampleBaseline, sampleAlphas, linspace,
        interpolate, currentBaselineFor, npZerosStar])⟩
